import Mathlib

/-!
Verification of the natural-language specification of
MozillaReality/symbolgenerator (src/symbolstore.py, src/find_symbols.py)
against a shallow embedding of the source.

The embedding works over `List Char` / `String`, mirroring the Python string
operations used by the source (`str.split`, `str.rstrip`, `str.startswith`,
`os.path.join`, `os.path.normpath` in their POSIX variants, `re.sub` for the
single anchored pattern the source uses).  Stateful parts (file writes,
directory creation, subprocess results, HTTP responses) are embedded as pure
functions from the externally supplied data (the dumper's stdout lines, the
error raised by `os.makedirs`, the `file(1)` output, the HTTP status of each
attempt) to a record of the observable outcome.
-/

namespace SymbolStore

/-- Whitespace characters recognised by Python's `str.split()` / `str.rstrip()`
(restricted to the ASCII range, which covers the data handled here). -/
def isSpaceC (c : Char) : Bool :=
  c = ' ' || c = '\t' || c = '\n' || c = '\r' || c = '\x0b' || c = '\x0c'

/-- Chars-level prefix test, `str.startswith`. -/
def isPrefixL : List Char → List Char → Bool
  | [], _ => true
  | _ :: _, [] => false
  | a :: as, b :: bs => a = b && isPrefixL as bs

/-- Chars-level suffix test, `str.endswith`. -/
def isSuffixL (p l : List Char) : Bool := isPrefixL p.reverse l.reverse

/-- Chars-level substring test, Python's `pat in s`. -/
def containsL (pat : List Char) : List Char → Bool
  | [] => pat.isEmpty
  | c :: cs => isPrefixL pat (c :: cs) || containsL pat cs

/-- Split on every occurrence of `sep`, keeping empty components:
Python's `s.split(sep)`. -/
def splitAllOn (sep : Char) : List Char → List (List Char)
  | [] => [[]]
  | c :: cs =>
    match splitAllOn sep cs with
    | [] => [[]]
    | t :: ts => if c = sep then [] :: t :: ts else (c :: t) :: ts

/-- Join components with `sep` between them: Python's `sep.join(comps)`. -/
def joinSep (sep : Char) : List (List Char) → List Char
  | [] => []
  | [t] => t
  | t :: t2 :: ts => t ++ sep :: joinSep sep (t2 :: ts)

/-- Whitespace split dropping empty tokens (Python `s.split()`); the `Option`
argument is the token currently being accumulated, reversed. -/
def splitWsGo : Option (List Char) → List Char → List (List Char)
  | none, [] => []
  | some acc, [] => [acc.reverse]
  | none, c :: cs =>
    if isSpaceC c then splitWsGo none cs else splitWsGo (some [c]) cs
  | some acc, c :: cs =>
    if isSpaceC c then acc.reverse :: splitWsGo none cs
    else splitWsGo (some (c :: acc)) cs

def splitWsL (l : List Char) : List (List Char) := splitWsGo none l

/-- Whitespace split with a maximum number of splits
(Python `s.split(None, maxs)`): once `maxs` splits have been made, the
remainder after skipping leading whitespace is taken whole. -/
def splitWsMaxGo : Nat → Option (List Char) → List Char → List (List Char)
  | _, none, [] => []
  | _, some acc, [] => [acc.reverse]
  | maxs, none, c :: cs =>
    if isSpaceC c then splitWsMaxGo maxs none cs
    else if maxs = 0 then [c :: cs]
    else splitWsMaxGo (maxs - 1) (some [c]) cs
  | maxs, some acc, c :: cs =>
    if isSpaceC c then acc.reverse :: splitWsMaxGo maxs none cs
    else splitWsMaxGo maxs (some (c :: acc)) cs

/-- Split on `sep` keeping empties, with a maximum number of splits
(Python `s.split(sep, maxs)`). -/
def splitCharMaxL (sep : Char) : Nat → List Char → List (List Char)
  | _, [] => [[]]
  | maxs, c :: cs =>
    if c = sep ∧ maxs ≠ 0 then [] :: splitCharMaxL sep (maxs - 1) cs
    else
      match splitCharMaxL sep maxs cs with
      | [] => [[c]]
      | t :: ts => (c :: t) :: ts

/-- Python `s.rstrip()`. -/
def rstripL (l : List Char) : List Char := (l.reverse.dropWhile isSpaceC).reverse

/-- The body of the `new_comps` loop of POSIX `os.path.normpath`, transcribed
from CPython's `posixpath.normpath`; `acc` is `new_comps`. -/
def normLoopGo (initSlashes : Nat) : List (List Char) → List (List Char) → List (List Char)
  | acc, [] => acc
  | acc, comp :: rest =>
    if comp = [] ∨ comp = ['.'] then normLoopGo initSlashes acc rest
    else if comp ≠ ['.', '.'] ∨ (initSlashes = 0 ∧ acc = []) ∨
        acc.getLast? = some ['.', '.'] then
      normLoopGo initSlashes (acc ++ [comp]) rest
    else if acc ≠ [] then normLoopGo initSlashes acc.dropLast rest
    else normLoopGo initSlashes acc rest

/-- POSIX `os.path.normpath`, transcribed from CPython's `posixpath.normpath`. -/
def normpathL (p : List Char) : List Char :=
  if p = [] then ['.']
  else
    let initSlashes : Nat :=
      if isPrefixL ['/'] p then
        if isPrefixL ['/', '/'] p ∧ ¬ isPrefixL ['/', '/', '/'] p then 2 else 1
      else 0
    let comps := normLoopGo initSlashes [] (splitAllOn '/' p)
    let out := List.replicate initSlashes '/' ++ joinSep '/' comps
    if out = [] then ['.'] else out

/-- POSIX `os.path.join` on two components, transcribed from CPython's
`posixpath.join`. -/
def posixJoinL (a b : List Char) : List Char :=
  if isPrefixL ['/'] b then b
  else if a = [] ∨ isSuffixL ['/'] a then a ++ b
  else a ++ '/' :: b

/-- `re.sub("\.pdb$", "", s)`: Python's `$` matches at the end of the string
or just before a final newline. -/
def reSubPdbEndL (l : List Char) : List Char :=
  if isSuffixL ['.', 'p', 'd', 'b'] l then l.take (l.length - 4)
  else if isSuffixL ['.', 'p', 'd', 'b', '\n'] l then l.take (l.length - 5) ++ ['\n']
  else l

/- String-level wrappers over the `List Char` operations. -/

def sStartsWith (p s : String) : Bool := isPrefixL p.data s.data
def sEndsWith (p s : String) : Bool := isSuffixL p.data s.data
def sContains (p s : String) : Bool := containsL p.data s.data
def pyRstrip (s : String) : String := ⟨rstripL s.data⟩
def pySplit (s : String) : List String := (splitWsL s.data).map String.mk
def splitWsMax (maxs : Nat) (s : String) : List String :=
  (splitWsMaxGo maxs none s.data).map String.mk
def splitCharMax (sep : Char) (maxs : Nat) (s : String) : List String :=
  (splitCharMaxL sep maxs s.data).map String.mk
def pyNormpath (s : String) : String := ⟨normpathL s.data⟩
def posixJoin (a b : String) : String := ⟨posixJoinL a.data b.data⟩
def replaceBackslash (s : String) : String :=
  ⟨s.data.map (fun c => if c = '\\' then '/' else c)⟩
def reSubPdbEnd (s : String) : String := ⟨reSubPdbEndL s.data⟩

/-- A plain path component: nonempty, not `.` or `..`, and free of the two
path separator characters.  Such components pass through `os.path.normpath`
and the `replace("\\", "/")` untouched. -/
def simpleCompL (t : List Char) : Bool :=
  decide (t ≠ [] ∧ t ≠ ['.'] ∧ t ≠ ['.', '.'] ∧ ∀ c ∈ t, c ≠ '/' ∧ c ≠ '\\')

/-- A clean relative path: every `/`-separated component is plain.  This
rules out empty paths, leading/trailing/double slashes, and `.`/`..`
components. -/
def cleanRelL (l : List Char) : Bool :=
  decide (∀ t ∈ splitAllOn '/' l, simpleCompL t = true)

/-- A clean path: either a clean relative path or a single leading slash
followed by one (`//` has special POSIX meaning and is excluded). -/
def cleanPathL (l : List Char) : Bool :=
  if isPrefixL ['/'] l then !isPrefixL ['/'] l.tail && cleanRelL l.tail
  else cleanRelL l

def cleanPath (s : String) : Bool := cleanPathL s.data

/-- A well-formed whitespace-delimited token that is also a plain path
component: what a sane `guid` or `debug_file` from a real `MODULE` line
looks like. -/
def goodToken (s : String) : Bool :=
  decide (s.data ≠ [] ∧ s.data ≠ ['.'] ∧ s.data ≠ ['.', '.'] ∧
    ∀ c ∈ s.data, ¬ isSpaceC c = true ∧ c ≠ '/' ∧ c ≠ '\\')

/-- Python exceptions relevant to the embedded code paths. -/
inductive PyErr where
  | valueError
  | osError (errno : Nat)
  | nameError (missing : String)
  | calledProcessError
deriving DecidableEq

instance {ε α : Type} [DecidableEq ε] [DecidableEq α] : DecidableEq (Except ε α) :=
  fun x y =>
    match x, y with
    | .error e, .error f =>
      if h : e = f then isTrue (h ▸ rfl) else isFalse (fun hh => h (Except.error.inj hh))
    | .ok a, .ok b =>
      if h : a = b then isTrue (h ▸ rfl) else isFalse (fun hh => h (Except.ok.inj hh))
    | .error _, .ok _ => isFalse (fun hh => Except.noConfusion hh)
    | .ok _, .error _ => isFalse (fun hh => Except.noConfusion hh)

def EEXIST : Nat := 17
def EACCES : Nat := 13

/-- Result of the line-processing loop of `Dumper.ProcessFileWork`
(symbolstore.py lines 254-291).  `out` holds the lines written to the open
symbol file, in order; `ctors` is the static-constructor counter; `codeInfo`
is the `(code_id, code_file)` captured from a well-formed `INFO CODE_ID`
line (last one wins); `err = some e` means the loop raised `e` (which the
enclosing `except Exception` re-raises). -/
structure LinesResult where
  out : List String
  ctors : Nat
  codeInfo : Option (String × String)
  err : Option PyErr
deriving DecidableEq

/-- The pattern of clang/gcc static initializers (symbolstore.py line 283). -/
def globPat : String := "_GLOBAL__sub_"

/-- The pattern of MSVC dynamic initializers (symbolstore.py line 287):
a backtick, the words, and an opening single quote. -/
def msvcPat : String := "\x60dynamic initializer for \x27"

/-- A dumper FUNC line naming a clang/gcc static initializer. -/
def funcGlobLine (l : String) : Bool := sStartsWith "FUNC " l && sContains globPat l

/-- A dumper FUNC line naming an MSVC dynamic initializer. -/
def funcMsvcLine (l : String) : Bool := sStartsWith "FUNC " l && sContains msvcPat l

/-- The precondition under which `Dumper.ProcessFileWork` gets past parsing
the module header: a first line beginning with `MODULE` that splits into at
least five whitespace-separated tokens. -/
def headerParses (dumpOutput : List String) : Bool :=
  match dumpOutput with
  | [] => false
  | ml :: _ => sStartsWith "MODULE" ml && decide (2 ≤ ((pySplit ml).drop 3).length)

/-- The `for line in proc.stdout` loop of `Dumper.ProcessFileWork`
(symbolstore.py lines 254-291), as a function of the remaining dumper-output
lines.  `fmap` is `self.file_mapping` (`none` when a filename is not in the
mapping); `vcsinfo` and `count_ctors` are the corresponding flags. -/
def processLines (vcsinfo count_ctors : Bool) (fmap : String → Option String) :
    List String → LinesResult
  | [] => ⟨[], 0, none, none⟩
  | line :: rest =>
    if sStartsWith "FILE" line then
      -- (x, index, filename) = line.rstrip().split(None, 2): raises
      -- ValueError unless the split yields exactly three parts.
      match splitWsMax 2 (pyRstrip line) with
      | [_, index, filename0] =>
        let filename1 := pyNormpath filename0
        let filename := (fmap filename1).getD filename1
        if vcsinfo then
          -- "Unexpected error: Not support VCS." is printed and the loop
          -- breaks; the file is then closed normally.
          ⟨[], 0, none, none⟩
        else if sStartsWith "hg" filename then
          -- (ver, checkout, source_file, revision) = filename.split(":", 3)
          match splitCharMax ':' 3 filename with
          | [_, _, _, _] =>
            let r := processLines vcsinfo count_ctors fmap rest
            ⟨("FILE " ++ index ++ " " ++ filename ++ "\n") :: r.out,
              r.ctors, r.codeInfo, r.err⟩
          | _ => ⟨[], 0, none, some .valueError⟩
        else
          let r := processLines vcsinfo count_ctors fmap rest
          ⟨("FILE " ++ index ++ " " ++ filename ++ "\n") :: r.out,
            r.ctors, r.codeInfo, r.err⟩
      | _ => ⟨[], 0, none, some .valueError⟩
    else if sStartsWith "INFO CODE_ID " line then
      let r := processLines vcsinfo count_ctors fmap rest
      let ci : Option (String × String) :=
        match splitWsMax 3 (pyRstrip line) with
        | [_, _, code_id, code_file] => some (code_id, code_file)
        | _ => none
      ⟨line :: r.out, r.ctors, (if r.codeInfo.isSome then r.codeInfo else ci), r.err⟩
    else
      let inc : Nat :=
        if count_ctors && sStartsWith "FUNC " line then
          if sContains globPat line then 1
          else if sContains msvcPat line then 1
          else 0
        else 0
      let r := processLines vcsinfo count_ctors fmap rest
      ⟨line :: r.out, inc + r.ctors, r.codeInfo, r.err⟩

/-- The `try: os.makedirs(...) except OSError: pass` of `Dumper.ProcessFileWork`
(symbolstore.py lines 247-250).  The argument is the error raised by
`os.makedirs` (`none` when it succeeds); the bare `except OSError` swallows
every `OSError`, whatever its errno. -/
def ProcessFileWork_makedirs (mkdirErr : Option Nat) : Except PyErr Unit :=
  match mkdirErr with
  | none => .ok ()
  | some _ => .ok ()

/-- The `try: os.makedirs(...) except OSError as e: if e.errno != errno.EEXIST:
raise` of `Dumper_Win32.CopyDebug` (symbolstore.py lines 415-419). -/
def CopyDebug_makedirs (mkdirErr : Option Nat) : Except PyErr Unit :=
  match mkdirErr with
  | none => .ok ()
  | some e => if e = EEXIST then .ok () else .error (.osError e)

/-- Observable outcome of one `Dumper.ProcessFileWork` run.
  * `written = some (path, lines)`: the output file was opened (created) at
    `path` and `lines` were written to it, in order;
  * `closed`: `f.close()` was reached;
  * `err = some e`: the exception `e` propagated out of the call (the
    `except Exception` clause re-raises);
  * `ctorsReport`: the `num_static_constructors` value put in the
    perfherder data block (`none` when not counting or when the report is
    skipped because an exception propagated first);
  * `bundleRemoved`: the `shutil.rmtree(dsymbundle)` at lines 311-312 ran. -/
structure PFWResult where
  written : Option (String × List String)
  closed : Bool
  err : Option PyErr
  ctorsReport : Option Nat
  bundleRemoved : Bool
deriving DecidableEq

/-- Output-path computation of `Dumper.ProcessFileWork`
(symbolstore.py lines 240-246). -/
def pfwFullPath (symbol_path guid debug_file : String) : String :=
  let sym_file := reSubPdbEnd debug_file ++ ".sym"
  let rel_path := replaceBackslash (posixJoin (posixJoin debug_file guid) sym_file)
  pyNormpath (posixJoin symbol_path rel_path)

/-- `Dumper.ProcessFileWork` (symbolstore.py lines 221-341) as a function of
the dumper's stdout lines.  The model covers the dump-and-write portion:
`srcsrv` and `copy_debug` are left disabled — their effects
(`SourceServerIndexing`, `CopyDebug`) run only after the symbol file has been
closed and do not alter it.  An empty `dumpOutput` makes `proc.stdout.next()`
raise `StopIteration`, which the source catches and ignores.  `dsymbundle`
says whether a Mac dSYM bundle path was passed in. -/
def ProcessFileWork (symbol_path : String) (vcsinfo count_ctors : Bool)
    (fmap : String → Option String) (mkdirErr : Option Nat) (dsymbundle : Bool)
    (dumpOutput : List String) : PFWResult :=
  match dumpOutput with
  | [] =>
    -- StopIteration from proc.stdout.next(): caught, pass.
    ⟨none, false, none, if count_ctors then some 0 else none, dsymbundle⟩
  | module_line :: rest =>
    if sStartsWith "MODULE" module_line then
      -- (guid, debug_file) = (module_line.split())[3:5]: raises ValueError
      -- unless the split yields at least five tokens.
      match (pySplit module_line).drop 3 with
      | guid :: debug_file :: _ =>
        let full_path := pfwFullPath symbol_path guid debug_file
        match ProcessFileWork_makedirs mkdirErr with
        | .error e => ⟨none, false, some e, none, false⟩
        | .ok _ =>
          -- f = open(full_path, "w"); f.write(module_line); then the loop.
          let r := processLines vcsinfo count_ctors fmap rest
          match r.err with
          | some e => ⟨some (full_path, module_line :: r.out), false, some e, none, false⟩
          | none =>
            ⟨some (full_path, module_line :: r.out), true, none,
              if count_ctors then some r.ctors else none, dsymbundle⟩
      | _ => ⟨none, false, some .valueError, none, false⟩
    else
      -- A first line not beginning with MODULE: the whole if-block is
      -- skipped, nothing is written and no error is raised.
      ⟨none, false, none, if count_ctors then some 0 else none, dsymbundle⟩

/-- The per-architecture loop of `Dumper.ProcessFile` (symbolstore.py lines
210-212): `ProcessFileWork` runs once per architecture; a propagating
exception aborts the loop, otherwise processing continues with the next
architecture.  `archOutputs` gives the dumper's stdout for each architecture. -/
def ProcessFile_archLoop (symbol_path : String) (vcsinfo count_ctors : Bool)
    (fmap : String → Option String) (mkdirErr : Option Nat) (dsymbundle : Bool) :
    List (List String) → Except PyErr (List PFWResult)
  | [] => .ok []
  | o :: os =>
    let r := ProcessFileWork symbol_path vcsinfo count_ctors fmap mkdirErr dsymbundle o
    match r.err with
    | some e => .error e
    | none =>
      match ProcessFile_archLoop symbol_path vcsinfo count_ctors fmap mkdirErr dsymbundle os with
      | .error e => .error e
      | .ok rs => .ok (r :: rs)

/-- Outcome of one `requests.post` attempt inside `Upload_Symbol`:
either a response with a status code, or a raised
`requests.exceptions.RequestException`. -/
inductive ReqOutcome where
  | status (code : Nat)
  | exc
deriving DecidableEq

/-- An attempt after which `Upload_Symbol` retries: a transport exception or
a status code >= 500 (symbolstore.py lines 604-610). -/
def retryable : ReqOutcome → Bool
  | .status c => 500 ≤ c
  | .exc => true

def MAX_RETRIES : Nat := 5

/-- The retry loop of `Upload_Symbol` (symbolstore.py lines 588-614).
`outs i` is the outcome of the i-th POST attempt (1-based); `fuel` is the
number of attempts `redo.retrier(attempts=MAX_RETRIES)` still yields.
Returns the status code the loop `break`s on (or `none` when the loop is
exhausted, reaching its `else` clause) together with the number of attempts
made. -/
def uploadGo (outs : Nat → ReqOutcome) : Nat → Nat → Option Nat × Nat
  | _, 0 => (none, 0)
  | i, fuel + 1 =>
    match outs i with
    | .exc =>
      let p := uploadGo outs (i + 1) fuel
      (p.1, p.2 + 1)
    | .status c =>
      if c < 500 then (some c, 1)
      else
        let p := uploadGo outs (i + 1) fuel
        (p.1, p.2 + 1)

/-- `Upload_Symbol` (symbolstore.py lines 574-621) as a function of the
outcome of each POST attempt: returns the boolean result together with the
number of attempts made.  Exhausting the retrier returns `False`; breaking
out returns `True` exactly when the final status code is in [200, 300). -/
def Upload_Symbol (outs : Nat → ReqOutcome) : Bool × Nat :=
  match uploadGo outs 1 MAX_RETRIES with
  | (none, n) => (false, n)
  | (some c, n) => (decide (200 ≤ c ∧ c < 300), n)

/-- The tail of `main` (symbolstore.py lines 709-711): `return 1` when
`Upload_Symbol` returned `False`, otherwise fall off the end (`None`). -/
def main_return (uploadOk : Bool) : Option Int :=
  if uploadOk then none else some 1

/-- The module entry point (symbolstore.py lines 713-715): `main()` is called
bare, its return value is discarded, and the interpreter then exits with
status 0 (no `sys.exit(main())`). -/
def script_exit_code (uploadOk : Bool) : Int :=
  let _ := main_return uploadOk
  0

/-- `Dumper.RunFileCommand` (symbolstore.py lines 177-182): runs
`file -Lb <file>` through `subprocess.Popen` with no exception handling, so
a failure to run the command propagates.  `fileCmd` is the outcome of that
external invocation. -/
def Dumper_RunFileCommand (fileCmd : Except PyErr String) : Except PyErr String :=
  fileCmd

/-- `Dumper_Linux.ShouldProcess` (symbolstore.py lines 445-453):
`executable` is `os.access(file, os.X_OK)`. -/
def Dumper_Linux_ShouldProcess (fname : String) (executable : Bool)
    (fileCmd : Except PyErr String) : Except PyErr Bool :=
  if sEndsWith ".so" fname || executable then
    match Dumper_RunFileCommand fileCmd with
    | .error e => .error e
    | .ok out => .ok (sStartsWith "ELF" out)
  else .ok false

/-- `Dumper_Solaris.RunFileCommand` (symbolstore.py lines 476-482):
`output.split('\t')[1]` inside a bare `try/except` that returns `""` on any
exception — both a failed `os.popen` read and an output without a tab
(IndexError) yield `""`. -/
def Dumper_Solaris_RunFileCommand (popenOut : Except PyErr String) : String :=
  match popenOut with
  | .error _ => ""
  | .ok out =>
    match (splitAllOn '\t' out.data).drop 1 with
    | t :: _ => ⟨t⟩
    | [] => ""

/-- `Dumper_Solaris.ShouldProcess` (symbolstore.py lines 484-491). -/
def Dumper_Solaris_ShouldProcess (fname : String) (executable : Bool)
    (popenOut : Except PyErr String) : Except PyErr Bool :=
  if sEndsWith ".so" fname || executable then
    .ok (sStartsWith "ELF" (Dumper_Solaris_RunFileCommand popenOut))
  else .ok false

/-- Names bound at module level in symbolstore.py: the imports at lines 24-39
and the top-level definitions.  `buildconfig` is not among them. -/
def symbolstore_globals : List String :=
  ["print_function", "errno", "sys", "platform", "os", "re", "redo",
   "requests", "subprocess", "time", "ctypes", "shutil", "zipfile",
   "OptionParser", "DEFAULT_SYMBOL_URL", "MAX_RETRIES", "read_output",
   "normpath", "IsInDir", "GetPlatformSpecificDumper", "SourceIndex",
   "Dumper", "locate_pdb", "Dumper_Win32", "Dumper_Linux", "Dumper_Solaris",
   "Dumper_Mac", "Upload_Symbol", "main"]

/-- Python global-name resolution in the symbolstore.py module: a name not
bound at module level (nor a builtin used here) raises `NameError`. -/
def resolveGlobal (n : String) : Bool := symbolstore_globals.contains n

/-- The nested `compress` of `Dumper_Win32.CopyDebug` (symbolstore.py lines
380-392).  Its first statement needing `buildconfig`
(`makecab = buildconfig.substs['MAKECAB']`) runs before `subprocess.call`.
The first component lists the external tools actually invoked; `callRet` and
`compressedExists` parametrise the dead branch in which the name resolved. -/
def Dumper_Win32_compress (callRet : Int) (compressedExists : Bool) :
    List String × Except PyErr Bool :=
  if resolveGlobal "buildconfig" then
    (["MAKECAB"], .ok ((callRet == 0) && compressedExists))
  else
    ([], .error (.nameError "buildconfig"))

/-- `Dumper_Win32.CopyDebug` from the point where it reaches its compression
step (symbolstore.py line 400, `if compress(full_path):`): the first
`compress` call raises and the exception propagates out of `CopyDebug`. -/
def Dumper_Win32_CopyDebug_compressStep (callRet : Int) (compressedExists : Bool) :
    Except PyErr Unit :=
  match (Dumper_Win32_compress callRet compressedExists).2 with
  | .error e => .error e
  | .ok _ => .ok ()

/-- `Dumper_Mac.GenerateDSYM` (symbolstore.py lines 523-554).  The
`dsymutil = buildconfig.substs['DSYMUTIL']` at line 534 runs before the
`try` block that invokes dsymutil.  `dsymutilOk` and `bundleProduced`
parametrise the dead branch; the result is `some bundle` on success and
`none` for the `return False` taken when no bundle was produced. -/
def Dumper_Mac_GenerateDSYM (file : String) (dsymutilOk bundleProduced : Bool) :
    List String × Except PyErr (Option String) :=
  if resolveGlobal "buildconfig" then
    (["DSYMUTIL"],
      if dsymutilOk then
        if bundleProduced then .ok (some (file ++ ".dSYM")) else .ok none
      else .error .calledProcessError)
  else
    ([], .error (.nameError "buildconfig"))

/-- `Dumper_Mac.ProcessFile` (symbolstore.py lines 503-510): it first calls
`GenerateDSYM`; only if that returns a bundle does it hand off to
`Dumper.ProcessFile`.  The boolean result records whether the hand-off
happened. -/
def Dumper_Mac_ProcessFile (file : String) (dsymutilOk bundleProduced : Bool) :
    Except PyErr Bool :=
  match (Dumper_Mac_GenerateDSYM file dsymutilOk bundleProduced).2 with
  | .error e => .error e
  | .ok none => .ok false
  | .ok (some _) => .ok true

/-! Helper lemmas about the path-string operations. -/

theorem strData_eq : ∀ {a b : String}, a.data = b.data → a = b := by
  intro a b h
  cases a
  cases b
  cases h
  rfl

theorem sdata_append (a b : String) : (a ++ b).data = a.data ++ b.data := by
  cases a
  cases b
  rfl

theorem splitAllOn_ne_nil (sep : Char) (l : List Char) : splitAllOn sep l ≠ [] := by
  induction l with
  | nil => simp [splitAllOn]
  | cons c cs ih =>
    rcases h : splitAllOn sep cs with _ | ⟨t, ts⟩
    · exact absurd h ih
    · simp only [splitAllOn, h]
      by_cases hc : c = sep <;> simp [hc]

theorem splitAllOn_append_sep (sep : Char) (xs ys : List Char) :
    splitAllOn sep (xs ++ sep :: ys) = splitAllOn sep xs ++ splitAllOn sep ys := by
  induction xs with
  | nil =>
    rcases h : splitAllOn sep ys with _ | ⟨t, ts⟩
    · exact absurd h (splitAllOn_ne_nil sep ys)
    · simp [splitAllOn, h]
  | cons c cs ih =>
    rcases h : splitAllOn sep cs with _ | ⟨t, ts⟩
    · exact absurd h (splitAllOn_ne_nil sep cs)
    · rw [h] at ih
      simp only [List.cons_append, splitAllOn, h, List.append_eq]
      rw [ih]
      by_cases hc : c = sep <;> simp [hc]

theorem splitAllOn_no_sep (sep : Char) (l : List Char) (h : ∀ c ∈ l, c ≠ sep) :
    splitAllOn sep l = [l] := by
  induction l with
  | nil => rfl
  | cons c cs ih =>
    have hc : c ≠ sep := h c (by simp)
    have ih' := ih (fun x hx => h x (by simp [hx]))
    simp [splitAllOn, ih', hc]

theorem joinSep_splitAllOn (sep : Char) (l : List Char) :
    joinSep sep (splitAllOn sep l) = l := by
  induction l with
  | nil => rfl
  | cons c cs ih =>
    rcases h : splitAllOn sep cs with _ | ⟨t, ts⟩
    · exact absurd h (splitAllOn_ne_nil sep cs)
    · rw [h] at ih
      by_cases hc : c = sep
      · subst hc
        simp [splitAllOn, h, joinSep, ih]
      · simp only [splitAllOn, h, if_neg hc]
        cases ts with
        | nil => simpa [joinSep] using congrArg (c :: ·) ih
        | cons t2 ts' => simpa [joinSep] using congrArg (c :: ·) ih

theorem isPrefixL_single (c : Char) (l : List Char) :
    isPrefixL [c] l = true ↔ ∃ t, l = c :: t := by
  cases l with
  | nil => simp [isPrefixL]
  | cons a as =>
    simp only [isPrefixL, Bool.and_true, decide_eq_true_eq]
    constructor
    · intro h
      exact ⟨as, by rw [h]⟩
    · rintro ⟨t, ht⟩
      injection ht with h1 _
      exact h1.symm

theorem isPrefixL_single_append (c : Char) (xs zs : List Char) (h : xs ≠ []) :
    isPrefixL [c] (xs ++ zs) = isPrefixL [c] xs := by
  cases xs with
  | nil => exact absurd rfl h
  | cons a as => simp [isPrefixL]

theorem not_isPrefixL_of_no_char (x : Char) (l : List Char) (h : ∀ c ∈ l, c ≠ x) :
    isPrefixL [x] l = false := by
  cases l with
  | nil => rfl
  | cons a as =>
    have : x ≠ a := fun hx => h a (by simp) hx.symm
    simp [isPrefixL, this]

theorem no_char_not_suffix (x : Char) (l : List Char) (h : ∀ c ∈ l, c ≠ x) :
    isSuffixL [x] l = false := by
  unfold isSuffixL
  exact not_isPrefixL_of_no_char x l.reverse (fun c hc => h c (List.mem_reverse.mp hc))

theorem simpleCompL_facts (t : List Char) (h : simpleCompL t = true) :
    t ≠ [] ∧ t ≠ ['.'] ∧ t ≠ ['.', '.'] ∧ ∀ c ∈ t, c ≠ '/' ∧ c ≠ '\\' := by
  simpa [simpleCompL] using h

theorem cleanRelL_append_comp (a t : List Char)
    (ha : cleanRelL a = true) (ht : simpleCompL t = true) :
    cleanRelL (a ++ '/' :: t) = true := by
  simp only [cleanRelL, decide_eq_true_eq] at ha ⊢
  intro u hu
  rw [splitAllOn_append_sep] at hu
  rcases List.mem_append.mp hu with h1 | h2
  · exact ha u h1
  · rw [splitAllOn_no_sep '/' t (fun c hc => ((simpleCompL_facts t ht).2.2.2 c hc).1)] at h2
    simp at h2
    rw [h2]
    exact ht

theorem cleanRelL_ne_nil (l : List Char) (h : cleanRelL l = true) : l ≠ [] := by
  intro he
  subst he
  simp [cleanRelL, splitAllOn, simpleCompL] at h

theorem cleanRelL_not_startSlash (l : List Char) (h : cleanRelL l = true) :
    isPrefixL ['/'] l = false := by
  by_contra hb
  have hp : isPrefixL ['/'] l = true := by
    cases hx : isPrefixL ['/'] l
    · exact absurd hx hb
    · rfl
  obtain ⟨t, ht⟩ := (isPrefixL_single '/' l).mp hp
  subst ht
  simp only [cleanRelL, decide_eq_true_eq] at h
  have : ([] : List Char) ∈ splitAllOn '/' ('/' :: t) := by
    show [] ∈ splitAllOn '/' ([] ++ '/' :: t)
    rw [splitAllOn_append_sep]
    simp [splitAllOn]
  have := h [] this
  simp [simpleCompL] at this

theorem cleanRelL_not_endSlash (l : List Char) (h : cleanRelL l = true) :
    isSuffixL ['/'] l = false := by
  by_contra hb
  have hp : isPrefixL ['/'] l.reverse = true := by
    cases hx : isPrefixL ['/'] l.reverse
    · exact absurd hx (by simpa [isSuffixL] using hb)
    · rfl
  obtain ⟨t, ht⟩ := (isPrefixL_single '/' l.reverse).mp hp
  have hl : l = t.reverse ++ ['/'] := by
    have := congrArg List.reverse ht
    simpa using this
  subst hl
  simp only [cleanRelL, decide_eq_true_eq] at h
  have : ([] : List Char) ∈ splitAllOn '/' (t.reverse ++ ['/']) := by
    have : splitAllOn '/' (t.reverse ++ '/' :: []) =
        splitAllOn '/' t.reverse ++ splitAllOn '/' [] := splitAllOn_append_sep '/' t.reverse []
    rw [this]
    simp [splitAllOn]
  have := h [] this
  simp [simpleCompL] at this

theorem normLoopGo_simple (i : Nat) (comps : List (List Char))
    (h : ∀ t ∈ comps, simpleCompL t = true) :
    ∀ acc, normLoopGo i acc comps = acc ++ comps := by
  induction comps with
  | nil => intro acc; simp [normLoopGo]
  | cons t ts ih =>
    intro acc
    obtain ⟨h1, h2, h3, _⟩ := simpleCompL_facts t (h t (by simp))
    rw [normLoopGo]
    rw [if_neg (by simp [h1, h2]), if_pos (Or.inl h3)]
    rw [ih (fun u hu => h u (by simp [hu])) (acc ++ [t])]
    simp

theorem normpathL_cleanRel (l : List Char) (h : cleanRelL l = true) : normpathL l = l := by
  have hne : l ≠ [] := cleanRelL_ne_nil l h
  have hpre : isPrefixL ['/'] l = false := cleanRelL_not_startSlash l h
  have hall : ∀ t ∈ splitAllOn '/' l, simpleCompL t = true := by
    simpa [cleanRelL, decide_eq_true_eq] using h
  unfold normpathL
  rw [if_neg hne]
  simp only [hpre, Bool.false_eq_true, if_false]
  rw [normLoopGo_simple 0 _ hall []]
  simp only [List.nil_append, List.replicate_zero]
  rw [joinSep_splitAllOn]
  simp [hne]

theorem normpathL_cleanPath (l : List Char) (h : cleanPathL l = true) : normpathL l = l := by
  by_cases hp : isPrefixL ['/'] l = true
  · obtain ⟨rest, hrest⟩ := (isPrefixL_single '/' l).mp hp
    subst hrest
    unfold cleanPathL at h
    rw [if_pos hp] at h
    simp only [List.tail_cons, Bool.and_eq_true, Bool.not_eq_true'] at h
    obtain ⟨hnp, hcr⟩ := h
    have hall : ∀ t ∈ splitAllOn '/' rest, simpleCompL t = true := by
      simpa [cleanRelL, decide_eq_true_eq] using hcr
    unfold normpathL
    rw [if_neg (by simp)]
    have h2 : isPrefixL ['/', '/'] ('/' :: rest) = isPrefixL ['/'] rest := by
      simp [isPrefixL]
    simp only [hp, if_true, h2, hnp, Bool.false_eq_true, false_and, if_false]
    have hsplit : splitAllOn '/' ('/' :: rest) = [] :: splitAllOn '/' rest := by
      show splitAllOn '/' ([] ++ '/' :: rest) = [] :: splitAllOn '/' rest
      rw [splitAllOn_append_sep]
      rfl
    rw [hsplit]
    rw [normLoopGo]
    rw [if_pos (Or.inl rfl)]
    rw [normLoopGo_simple 1 _ hall []]
    simp only [List.nil_append, List.replicate_one]
    rw [joinSep_splitAllOn]
    simp
  · unfold cleanPathL at h
    rw [if_neg hp] at h
    exact normpathL_cleanRel l h

theorem posixJoinL_eq (a b : List Char) (ha1 : a ≠ []) (ha2 : isSuffixL ['/'] a = false)
    (hb : isPrefixL ['/'] b = false) : posixJoinL a b = a ++ '/' :: b := by
  unfold posixJoinL
  rw [if_neg (by simp [hb]), if_neg (by simp [ha1, ha2])]

theorem isSuffix_slash_append_comp (a t : List Char) (ht : t ≠ [])
    (htns : ∀ c ∈ t, c ≠ '/') : isSuffixL ['/'] (a ++ '/' :: t) = false := by
  simp only [isSuffixL, List.reverse_append, List.reverse_cons, List.reverse_nil,
    List.nil_append, List.append_assoc, List.singleton_append]
  rw [isPrefixL_single_append '/' t.reverse _ (by simp [ht])]
  exact not_isPrefixL_of_no_char '/' t.reverse (fun c hc => htns c (List.mem_reverse.mp hc))

theorem cleanPathL_ne_nil (l : List Char) (h : cleanPathL l = true) : l ≠ [] := by
  intro he
  subst he
  simp [cleanPathL, isPrefixL, cleanRelL, splitAllOn, simpleCompL] at h

theorem cleanPathL_not_endSlash (l : List Char) (h : cleanPathL l = true) :
    isSuffixL ['/'] l = false := by
  by_cases hp : isPrefixL ['/'] l = true
  · obtain ⟨rest, hrest⟩ := (isPrefixL_single '/' l).mp hp
    subst hrest
    unfold cleanPathL at h
    rw [if_pos hp] at h
    simp only [List.tail_cons, Bool.and_eq_true, Bool.not_eq_true'] at h
    obtain ⟨_, hcr⟩ := h
    have hrne : rest ≠ [] := cleanRelL_ne_nil rest hcr
    show isPrefixL ['/'] ('/' :: rest).reverse = false
    rw [List.reverse_cons, isPrefixL_single_append '/' rest.reverse _ (by simp [hrne])]
    exact cleanRelL_not_endSlash rest hcr
  · unfold cleanPathL at h
    rw [if_neg hp] at h
    exact cleanRelL_not_endSlash l h

theorem cleanPath_append_comp (a t : List Char) (ha : cleanPathL a = true)
    (ht : simpleCompL t = true) : cleanPathL (a ++ '/' :: t) = true := by
  by_cases hp : isPrefixL ['/'] a = true
  · obtain ⟨r, hr⟩ := (isPrefixL_single '/' a).mp hp
    subst hr
    unfold cleanPathL at ha
    rw [if_pos hp] at ha
    simp only [List.tail_cons, Bool.and_eq_true, Bool.not_eq_true'] at ha
    obtain ⟨hnp, hcr⟩ := ha
    have hrne : r ≠ [] := cleanRelL_ne_nil r hcr
    unfold cleanPathL
    rw [if_pos (by simp [isPrefixL])]
    simp only [List.cons_append, List.tail_cons, Bool.and_eq_true, Bool.not_eq_true']
    exact ⟨by rw [isPrefixL_single_append '/' r _ hrne]; exact hnp,
      cleanRelL_append_comp r t hcr ht⟩
  · unfold cleanPathL at ha
    rw [if_neg hp] at ha
    unfold cleanPathL
    rw [if_neg (by
      rw [isPrefixL_single_append '/' a _ (cleanRelL_ne_nil a ha)]
      exact hp)]
    exact cleanRelL_append_comp a t ha ht

theorem map_no_backslash (l : List Char) (h : ∀ c ∈ l, c ≠ '\\') :
    l.map (fun c => if c = '\\' then '/' else c) = l := by
  induction l with
  | nil => rfl
  | cons c cs ih =>
    have hc : c ≠ '\\' := h c (by simp)
    simp [hc, ih (fun x hx => h x (by simp [hx]))]

theorem goodToken_facts (s : String) (h : goodToken s = true) :
    s.data ≠ [] ∧ s.data ≠ ['.'] ∧ s.data ≠ ['.', '.'] ∧
      ∀ c ∈ s.data, ¬ isSpaceC c = true ∧ c ≠ '/' ∧ c ≠ '\\' := by
  simpa [goodToken] using h

theorem goodToken_simple (s : String) (h : goodToken s = true) :
    simpleCompL s.data = true := by
  obtain ⟨h1, h2, h3, h4⟩ := goodToken_facts s h
  simp only [simpleCompL, decide_eq_true_eq]
  exact ⟨h1, h2, h3, fun c hc => (h4 c hc).2⟩

theorem reSubPdbEndL_mem (l : List Char) (c : Char) (hc : c ∈ reSubPdbEndL l) :
    c ∈ l ∨ c = '\n' := by
  unfold reSubPdbEndL at hc
  split at hc
  · exact Or.inl (List.take_subset _ _ hc)
  · split at hc
    · rcases List.mem_append.mp hc with h1 | h2
      · exact Or.inl (List.take_subset _ _ h1)
      · simp at h2
        exact Or.inr h2
    · exact Or.inl hc

theorem symComp_simple (df : List Char) (h : simpleCompL df = true) :
    simpleCompL (reSubPdbEndL df ++ ['.', 's', 'y', 'm']) = true := by
  obtain ⟨_, _, _, h4⟩ := simpleCompL_facts df h
  simp only [simpleCompL, decide_eq_true_eq]
  refine ⟨by simp, ?_, ?_, ?_⟩
  · intro he
    have := congrArg List.length he
    simp at this
  · intro he
    have := congrArg List.length he
    simp at this
  · intro c hc
    rcases List.mem_append.mp hc with h1 | h2
    · rcases reSubPdbEndL_mem df c h1 with h3 | h3
      · exact h4 c h3
      · subst h3
        exact ⟨by decide, by decide⟩
    · simp at h2
      rcases h2 with h2 | h2 | h2 | h2 <;> subst h2 <;> exact ⟨by decide, by decide⟩

theorem pfwFullPath_clean (sp g df : String)
    (hsp : cleanPath sp = true) (hg : goodToken g = true) (hdf : goodToken df = true) :
    pfwFullPath sp g df = sp ++ "/" ++ df ++ "/" ++ g ++ "/" ++ reSubPdbEnd df ++ ".sym" := by
  obtain ⟨hdfne, _, _, hdfc⟩ := goodToken_facts df hdf
  obtain ⟨hgne, _, _, hgc⟩ := goodToken_facts g hg
  have hdfS : simpleCompL df.data = true := goodToken_simple df hdf
  have hgS : simpleCompL g.data = true := goodToken_simple g hg
  set symd : List Char := reSubPdbEndL df.data ++ ['.', 's', 'y', 'm'] with hsymd
  have hsymS : simpleCompL symd = true := symComp_simple df.data hdfS
  obtain ⟨hsymne, _, _, hsymc⟩ := simpleCompL_facts symd hsymS
  have hspP : cleanPathL sp.data = true := hsp
  -- step 1: join debug_file and guid
  have e1 : posixJoinL df.data g.data = df.data ++ '/' :: g.data :=
    posixJoinL_eq _ _ hdfne
      (no_char_not_suffix '/' df.data (fun c hc => (hdfc c hc).2.1))
      (not_isPrefixL_of_no_char '/' g.data (fun c hc => (hgc c hc).2.1))
  -- step 2: join in the sym file name
  have e2 : posixJoinL (df.data ++ '/' :: g.data) symd =
      (df.data ++ '/' :: g.data) ++ '/' :: symd :=
    posixJoinL_eq _ _ (by simp)
      (isSuffix_slash_append_comp df.data g.data hgne (fun c hc => (hgc c hc).2.1))
      (not_isPrefixL_of_no_char '/' symd (fun c hc => (hsymc c hc).1))
  -- step 3: the backslash replacement is the identity here
  have e3 : ((df.data ++ '/' :: g.data) ++ '/' :: symd).map
      (fun c => if c = '\\' then '/' else c) = (df.data ++ '/' :: g.data) ++ '/' :: symd := by
    apply map_no_backslash
    intro c hc
    rcases List.mem_append.mp hc with h1 | h2
    · rcases List.mem_append.mp h1 with h3 | h4
      · exact (hdfc c h3).2.2
      · rcases List.mem_cons.mp h4 with h5 | h5
        · subst h5; decide
        · exact (hgc c h5).2.2
    · rcases List.mem_cons.mp h2 with h5 | h5
      · subst h5; decide
      · exact (hsymc c h5).2
  -- step 4: join the symbol path in front
  have e4 : posixJoinL sp.data ((df.data ++ '/' :: g.data) ++ '/' :: symd) =
      sp.data ++ '/' :: ((df.data ++ '/' :: g.data) ++ '/' :: symd) :=
    posixJoinL_eq _ _ (cleanPathL_ne_nil sp.data hspP) (cleanPathL_not_endSlash sp.data hspP)
      (by
        rw [isPrefixL_single_append '/' _ _ (by simp [hdfne]),
          isPrefixL_single_append '/' _ _ hdfne]
        exact not_isPrefixL_of_no_char '/' df.data (fun c hc => (hdfc c hc).2.1))
  -- step 5: normpath leaves the clean result unchanged
  have e5 : normpathL (sp.data ++ '/' :: ((df.data ++ '/' :: g.data) ++ '/' :: symd)) =
      sp.data ++ '/' :: ((df.data ++ '/' :: g.data) ++ '/' :: symd) := by
    have hassoc : sp.data ++ '/' :: ((df.data ++ '/' :: g.data) ++ '/' :: symd) =
        ((sp.data ++ '/' :: df.data) ++ '/' :: g.data) ++ '/' :: symd := by
      simp [List.append_assoc]
    rw [hassoc]
    apply normpathL_cleanPath
    exact cleanPath_append_comp _ _
      (cleanPath_append_comp _ _ (cleanPath_append_comp _ _ hspP hdfS) hgS) hsymS
  apply strData_eq
  have hsymdata : (reSubPdbEnd df ++ ".sym").data = symd := by
    rw [sdata_append]
    rfl
  show normpathL (posixJoinL sp.data
      ((posixJoinL (posixJoinL df.data g.data) (reSubPdbEnd df ++ ".sym").data).map
        (fun c => if c = '\\' then '/' else c))) = _
  rw [hsymdata, e1, e2, e3, e4, e5]
  simp [sdata_append, List.append_assoc]
  exact hsymd

theorem ProcessFileWork_makedirs_ok (m : Option Nat) :
    ProcessFileWork_makedirs m = .ok () := by
  cases m <;> rfl

theorem uploadGo_exhaust (outs : Nat → ReqOutcome) :
    ∀ (fuel i : Nat), (∀ j, i ≤ j → j < i + fuel → retryable (outs j) = true) →
      uploadGo outs i fuel = (none, fuel) := by
  intro fuel
  induction fuel with
  | zero => intro i _; rfl
  | succ f ih =>
    intro i h
    have hi : retryable (outs i) = true := h i (le_refl i) (by omega)
    cases ho : outs i with
    | exc =>
      simp only [uploadGo, ho]
      rw [ih (i + 1) (fun j h1 h2 => h j (by omega) (by omega))]
    | status c =>
      have hc : 500 ≤ c := by
        rw [ho] at hi
        simpa [retryable] using hi
      simp only [uploadGo, ho]
      rw [if_neg (by omega)]
      rw [ih (i + 1) (fun j h1 h2 => h j (by omega) (by omega))]

theorem uploadGo_break (outs : Nat → ReqOutcome) (c : Nat) (hc : c < 500) :
    ∀ (k fuel i : Nat), k < fuel →
      (∀ j, i ≤ j → j < i + k → retryable (outs j) = true) →
      outs (i + k) = .status c →
      uploadGo outs i fuel = (some c, k + 1) := by
  intro k
  induction k with
  | zero =>
    intro fuel i hk h ho
    cases fuel with
    | zero => omega
    | succ f =>
      simp only [uploadGo]
      rw [show i + 0 = i from rfl] at ho
      rw [ho]
      simp [hc]
  | succ k ih =>
    intro fuel i hk h ho
    cases fuel with
    | zero => omega
    | succ f =>
      have hi : retryable (outs i) = true := h i (le_refl i) (by omega)
      have ho' : outs (i + 1 + k) = .status c := by
        rw [show i + 1 + k = i + (k + 1) from by omega]
        exact ho
      cases hoi : outs i with
      | exc =>
        simp only [uploadGo, hoi]
        rw [ih f (i + 1) (by omega) (fun j h1 h2 => h j (by omega) (by omega)) ho']
      | status c2 =>
        have hc2 : 500 ≤ c2 := by
          rw [hoi] at hi
          simpa [retryable] using hi
        simp only [uploadGo, hoi]
        rw [if_neg (by omega)]
        rw [ih f (i + 1) (by omega) (fun j h1 h2 => h j (by omega) (by omega)) ho']

end SymbolStore

namespace SymbolStore

/-! Claim theorems. -/

/-- C1: for every dumper output stream whose first line begins with `MODULE`
and splits into at least five whitespace-separated tokens — the 4th being
`guid` and the 5th `debug_file` — `ProcessFileWork` creates the symbol file
at `symbol_path/debug_file/guid/(debug_file without a trailing .pdb).sym`,
and the first line written to it is the original `MODULE` line verbatim
(the preconditions `cleanPath`/`goodToken` say that the configured symbol
path and the two tokens are plain path material, so that `os.path.normpath`
is the identity on the result). -/
theorem C1_sym_file_path_and_header (sp ml : String) (rest : List String)
    (fmap : String → Option String) (v cc : Bool) (m : Option Nat) (d : Bool)
    (t0 t1 t2 g df : String) (ts : List String)
    (hsp : cleanPath sp = true)
    (hmod : sStartsWith "MODULE" ml = true)
    (htok : pySplit ml = t0 :: t1 :: t2 :: g :: df :: ts)
    (hg : goodToken g = true) (hdf : goodToken df = true) :
    (ProcessFileWork sp v cc fmap m d (ml :: rest)).written =
      some (sp ++ "/" ++ df ++ "/" ++ g ++ "/" ++ reSubPdbEnd df ++ ".sym",
        ml :: (processLines v cc fmap rest).out) := by
  simp only [ProcessFileWork, hmod, if_true, htok, List.drop_succ_cons,
    List.drop_zero, ProcessFileWork_makedirs_ok]
  rw [pfwFullPath_clean sp g df hsp hg hdf]
  cases herr : (processLines v cc fmap rest).err <;> simp [herr]

/-- Witness for C1: a concrete run whose symbol file lands at
`symbols/test.pdb/ABCD1234/test.sym` with the MODULE line first. -/
theorem C1_witness :
    (ProcessFileWork "symbols" false false (fun _ => none) none false
      ["MODULE Linux x86_64 ABCD1234 test.pdb\n"]).written =
      some ("symbols" ++ "/" ++ "test.pdb" ++ "/" ++ "ABCD1234" ++ "/" ++
        reSubPdbEnd "test.pdb" ++ ".sym",
        "MODULE Linux x86_64 ABCD1234 test.pdb\n" ::
          (processLines false false (fun _ => none) []).out) :=
  C1_sym_file_path_and_header "symbols" "MODULE Linux x86_64 ABCD1234 test.pdb\n" []
    (fun _ => none) false false none false
    "MODULE" "Linux" "x86_64" "ABCD1234" "test.pdb" []
    (by decide) (by decide) (by decide) (by decide) (by decide)

/-- C2 counterexample: a dumper stream with a valid `MODULE` header followed
by a malformed `FILE` line.  The ValueError from the tuple unpacking is
raised after `open(full_path, "w")` has created the file and after the
header has been written: the exception propagates, `f.close()` is never
reached, and a partial `.sym` file (holding only the header) is left on
disk — contradicting the claim that any failure occurs before the output
file is opened. -/
theorem C2_counterexample_partial_file :
    (ProcessFileWork "syms" false false (fun _ => none) none false
      ["MODULE Linux x86_64 ABCD libx.so\n", "FILE 0\n"]).err = some PyErr.valueError ∧
    (ProcessFileWork "syms" false false (fun _ => none) none false
      ["MODULE Linux x86_64 ABCD libx.so\n", "FILE 0\n"]).written =
      some ("syms/libx.so/ABCD/libx.so.sym", ["MODULE Linux x86_64 ABCD libx.so\n"]) ∧
    (ProcessFileWork "syms" false false (fun _ => none) none false
      ["MODULE Linux x86_64 ABCD libx.so\n", "FILE 0\n"]).closed = false := by
  decide

/-- C2 (amended): failures while parsing the module header do occur before
the output file is opened (no file is created), and any created file —
complete or partial — begins with the verbatim `MODULE` header line; but an
error raised while processing a later line leaves a partially written file
behind. -/
theorem C2_amended_no_file_or_header_first (sp : String) (v cc : Bool)
    (fmap : String → Option String) (m : Option Nat) (d : Bool)
    (dumpOutput : List String) :
    (headerParses dumpOutput = false →
      (ProcessFileWork sp v cc fmap m d dumpOutput).written = none) ∧
    (∀ p c, (ProcessFileWork sp v cc fmap m d dumpOutput).written = some (p, c) →
      ∃ ml rest, dumpOutput = ml :: rest ∧ sStartsWith "MODULE" ml = true ∧
        c.head? = some ml) := by
  cases dumpOutput with
  | nil => exact ⟨fun _ => rfl, fun p c h => by simp [ProcessFileWork] at h⟩
  | cons ml rest =>
    by_cases hm : sStartsWith "MODULE" ml = true
    · rcases hdrop : (pySplit ml).drop 3 with _ | ⟨g, gs⟩
      · constructor
        · intro _
          simp [ProcessFileWork, hm, hdrop]
        · intro p c h
          simp [ProcessFileWork, hm, hdrop] at h
      · rcases gs with _ | ⟨df, ts⟩
        · constructor
          · intro _
            simp [ProcessFileWork, hm, hdrop]
          · intro p c h
            simp [ProcessFileWork, hm, hdrop] at h
        · constructor
          · intro hfail
            exfalso
            simp [headerParses, hm, hdrop] at hfail
          · intro p c h
            refine ⟨ml, rest, rfl, hm, ?_⟩
            simp only [ProcessFileWork, hm, if_true, hdrop,
              ProcessFileWork_makedirs_ok] at h
            cases herr : (processLines v cc fmap rest).err <;>
              simp [herr] at h <;> simp [h.2.symm]
    · constructor
      · intro _
        simp [ProcessFileWork, hm]
      · intro p c h
        simp [ProcessFileWork, hm] at h

/-- Witness for C2's amended statement: an empty dump output creates no
file, and a well-formed run's file content begins with the MODULE line. -/
theorem C2_witness :
    (ProcessFileWork "syms" false false (fun _ => none) none false []).written = none ∧
    (∃ ml rest, (["MODULE os cpu guid dbg\n"] : List String) = ml :: rest ∧
      sStartsWith "MODULE" ml = true ∧
      (["MODULE os cpu guid dbg\n"] : List String).head? = some ml) :=
  ⟨(C2_amended_no_file_or_header_first "syms" false false (fun _ => none) none false
      []).1 (by decide),
    (C2_amended_no_file_or_header_first "syms" false false (fun _ => none) none false
      ["MODULE os cpu guid dbg\n"]).2 "syms/dbg/guid/dbg.sym"
      ["MODULE os cpu guid dbg\n"] (by decide)⟩

/-- C5: a dumper invocation producing empty stdout makes
`proc.stdout.next()` raise `StopIteration`, which `ProcessFileWork` catches:
no symbol file is written, no error propagates, and the per-architecture
loop of `ProcessFile` runs every remaining architecture. -/
theorem C5_empty_dump_output (sp : String) (v cc : Bool) (fmap : String → Option String)
    (m : Option Nat) (d : Bool) (n : Nat) :
    ProcessFileWork sp v cc fmap m d [] =
      ⟨none, false, none, if cc then some 0 else none, d⟩ ∧
    ProcessFile_archLoop sp v cc fmap m d (List.replicate n []) =
      .ok (List.replicate n ⟨none, false, none, if cc then some 0 else none, d⟩) := by
  refine ⟨rfl, ?_⟩
  induction n with
  | zero => rfl
  | succ k ih =>
    simp only [List.replicate_succ, ProcessFile_archLoop, ih]
    rfl

/-- C6 counterexample: the `except OSError: pass` around `os.makedirs` in
`ProcessFileWork` swallows a permission-denied error (`EACCES`) just as it
swallows `EEXIST` — contradicting the claim that a creation failure is
ignored only when the directory already exists. -/
theorem C6_counterexample_makedirs :
    ProcessFileWork_makedirs (some EACCES) = .ok () ∧ EACCES ≠ EEXIST := by
  decide

/-- C6 (amended): in `ProcessFileWork` every `OSError` from `os.makedirs`
is silently swallowed, whatever its errno; only `Dumper_Win32.CopyDebug`
restricts the ignore to `EEXIST` and re-raises anything else. -/
theorem C6_amended_makedirs (e : Nat) :
    ProcessFileWork_makedirs (some e) = .ok () ∧
    CopyDebug_makedirs (some e) =
      (if e = EEXIST then .ok () else .error (.osError e)) :=
  ⟨rfl, rfl⟩

/-- C8 counterexample: with a dSYM bundle present, a dumper stream whose
processing raises (malformed `FILE` line) propagates the exception through
the bare `raise` of the `except Exception` clause, so the
`shutil.rmtree(dsymbundle)` after the try-block never runs: the bundle
directory is leaked, contradicting the claim that it is removed
unconditionally, including on error. -/
theorem C8_counterexample_bundle_leak :
    (ProcessFileWork "syms" false false (fun _ => none) none true
      ["MODULE Darwin arm64 FACE0123 liby.dylib\n", "FILE 1\n"]).err ≠ none ∧
    (ProcessFileWork "syms" false false (fun _ => none) none true
      ["MODULE Darwin arm64 FACE0123 liby.dylib\n", "FILE 1\n"]).bundleRemoved = false := by
  decide

/-- C8 (amended): the dSYM bundle passed to `ProcessFileWork` is removed
exactly when no exception propagates out of the processing of the dumper
output — which includes the empty-output (`StopIteration`) and
non-`MODULE`-header cases — and is leaked whenever an error is re-raised. -/
theorem C8_amended_bundle_removed_iff_no_raise (sp : String) (v cc : Bool)
    (fmap : String → Option String) (m : Option Nat) (d : Bool) (ls : List String) :
    (ProcessFileWork sp v cc fmap m d ls).bundleRemoved =
      (d && decide ((ProcessFileWork sp v cc fmap m d ls).err = none)) := by
  cases ls with
  | nil => simp [ProcessFileWork]
  | cons ml rest =>
    by_cases hm : sStartsWith "MODULE" ml = true
    · rcases hdrop : (pySplit ml).drop 3 with _ | ⟨g, gs⟩
      · simp [ProcessFileWork, hm, hdrop]
      · rcases gs with _ | ⟨df, ts⟩
        · simp [ProcessFileWork, hm, hdrop]
        · simp only [ProcessFileWork, hm, if_true, hdrop, ProcessFileWork_makedirs_ok]
          cases herr : (processLines v cc fmap rest).err <;> simp [herr]
    · simp [ProcessFileWork, hm]

/-- C3: with `MAX_RETRIES = 5`, four 503 responses followed by a 200 yield
success after exactly five POST attempts; five consecutive 503s yield
failure after exactly five attempts with no further retries.  In general
the loop keeps retrying exactly over statuses >= 500 and transport
exceptions: the first attempt that returns a status < 500 ends the loop
there, succeeding precisely when that status is in [200, 300), and a run of
nothing but retryable outcomes ends in failure after `MAX_RETRIES`
attempts. -/
theorem C3_upload_retry_behaviour :
    (Upload_Symbol (fun i => if i = 5 then .status 200 else .status 503) = (true, 5)) ∧
    (Upload_Symbol (fun _ => .status 503) = (false, 5)) ∧
    (∀ (outs : Nat → ReqOutcome) (k c : Nat), k < MAX_RETRIES →
      (∀ j, 1 ≤ j → j ≤ k → retryable (outs j) = true) →
      outs (k + 1) = .status c → c < 500 →
      Upload_Symbol outs = (decide (200 ≤ c ∧ c < 300), k + 1)) ∧
    (∀ outs : Nat → ReqOutcome,
      (∀ j, 1 ≤ j → j ≤ MAX_RETRIES → retryable (outs j) = true) →
      Upload_Symbol outs = (false, MAX_RETRIES)) := by
  refine ⟨by decide, by decide, ?_, ?_⟩
  · intro outs k c hk h ho hc
    unfold Upload_Symbol
    rw [uploadGo_break outs c hc k MAX_RETRIES 1 hk
      (fun j h1 h2 => h j h1 (by omega))
      (by rw [show 1 + k = k + 1 from by omega]; exact ho)]
  · intro outs h
    unfold Upload_Symbol
    rw [uploadGo_exhaust outs MAX_RETRIES 1 (fun j h1 h2 => h j h1 (by omega))]

/-- Witness for C3's general clauses: two 503s then a 404 end the loop on
the third attempt with a failure (404 is final, not retried). -/
theorem C3_witness :
    Upload_Symbol (fun i => if i = 3 then ReqOutcome.status 404
      else ReqOutcome.status 503) = (false, 3) := by
  have h := C3_upload_retry_behaviour.2.2.1
    (fun i => if i = 3 then ReqOutcome.status 404 else ReqOutcome.status 503)
    2 404 (by decide)
    (fun j h1 h2 => by
      have : j = 1 ∨ j = 2 := by omega
      rcases this with h3 | h3 <;> subst h3 <;> decide)
    (by decide) (by decide)
  exact h

/-- C4 (code bug): when the upload exhausts its retries `Upload_Symbol`
returns `False` and `main` returns 1 — but the module entry point calls
`main()` bare, discarding the return value, so the interpreter exits with
status 0, not the claimed exit code 1. -/
theorem C4_exit_code_zero_on_upload_failure :
    (Upload_Symbol (fun _ => .status 503)).1 = false ∧
    main_return (Upload_Symbol (fun _ => .status 503)).1 = some 1 ∧
    script_exit_code (Upload_Symbol (fun _ => .status 503)).1 = 0 ∧
    script_exit_code (Upload_Symbol (fun _ => .status 503)).1 ≠ 1 := by
  decide

/-- C7 counterexample: a `.so` file submitted to the Solaris classifier
while the external `file` command fails does not propagate any error:
`Dumper_Solaris.RunFileCommand` catches the exception, returns `""`, and
`ShouldProcess` silently returns `False`, skipping the file. -/
theorem C7_counterexample_solaris_silent_skip :
    sEndsWith ".so" "libnative-lib.so" = true ∧
    Dumper_Solaris_ShouldProcess "libnative-lib.so" false
      (.error (.osError 2)) = .ok false := by
  exact ⟨by decide, rfl⟩

/-- C7 (amended): for eligible files (`.so` suffix or executable), a failing
magic-byte check propagates as a fatal error on Linux, whose
`RunFileCommand` has no exception handling; on Solaris the overridden
`RunFileCommand` swallows every failure and returns `""`, so the classifier
returns `False` and the file is silently skipped. -/
theorem C7_amended_linux_fatal_solaris_skip :
    (∀ (f : String) (ex : Bool) (e : PyErr), (sEndsWith ".so" f || ex) = true →
      Dumper_Linux_ShouldProcess f ex (.error e) = .error e) ∧
    (∀ (f : String) (ex : Bool) (e : PyErr),
      Dumper_Solaris_ShouldProcess f ex (.error e) = .ok false) := by
  constructor
  · intro f ex e h
    simp [Dumper_Linux_ShouldProcess, Dumper_RunFileCommand, h]
  · intro f ex e
    by_cases h : (sEndsWith ".so" f || ex) = true <;>
      simp [Dumper_Solaris_ShouldProcess, Dumper_Solaris_RunFileCommand, h,
        sStartsWith, isPrefixL]

/-- Witness for C7's amended statement: on Linux a missing `file` utility
(OSError 2, ENOENT) propagates out of `ShouldProcess` for a `.so` file. -/
theorem C7_witness :
    Dumper_Linux_ShouldProcess "libfoo.so" false (.error (.osError 2)) =
      .error (.osError 2) :=
  C7_amended_linux_fatal_solaris_skip.1 "libfoo.so" false (.osError 2) (by decide)

/-- C10: `buildconfig` is not bound anywhere in the module, so
`Dumper_Win32.CopyDebug`'s `compress` and `Dumper_Mac.GenerateDSYM` raise
`NameError` before invoking their external tool (the invoked-tools list is
empty), and consequently the Windows copy-debug path, once it reaches its
compression step, and the whole Mac processing path always fail. -/
theorem C10_buildconfig_undefined :
    resolveGlobal "buildconfig" = false ∧
    (∀ (cr : Int) (ce : Bool),
      Dumper_Win32_compress cr ce = ([], .error (.nameError "buildconfig"))) ∧
    (∀ (cr : Int) (ce : Bool),
      Dumper_Win32_CopyDebug_compressStep cr ce = .error (.nameError "buildconfig")) ∧
    (∀ (f : String) (a b : Bool),
      Dumper_Mac_GenerateDSYM f a b = ([], .error (.nameError "buildconfig"))) ∧
    (∀ (f : String) (a b : Bool),
      Dumper_Mac_ProcessFile f a b = .error (.nameError "buildconfig")) := by
  have hres : resolveGlobal "buildconfig" = false := by decide
  refine ⟨hres, ?_, ?_, ?_, ?_⟩ <;> intros <;>
    simp [Dumper_Win32_compress, Dumper_Win32_CopyDebug_compressStep,
      Dumper_Mac_GenerateDSYM, Dumper_Mac_ProcessFile, hres]

theorem sStartsWith_FILE_not_FUNC (l : String) (h : sStartsWith "FILE" l = true) :
    sStartsWith "FUNC " l = false := by
  unfold sStartsWith at h ⊢
  rw [show ("FILE" : String).data = ['F', 'I', 'L', 'E'] from rfl] at h
  rw [show ("FUNC " : String).data = ['F', 'U', 'N', 'C', ' '] from rfl]
  rcases hl : l.data with _ | ⟨a, _ | ⟨b, t⟩⟩ <;> rw [hl] at h
  · simp [isPrefixL] at h
  · simp [isPrefixL] at h
  · simp only [isPrefixL, Bool.and_eq_true, decide_eq_true_eq] at h
    obtain ⟨_, hb, _⟩ := h
    rw [← hb]
    simp [isPrefixL]

theorem sStartsWith_INFO_not_FUNC (l : String)
    (h : sStartsWith "INFO CODE_ID " l = true) : sStartsWith "FUNC " l = false := by
  unfold sStartsWith at h ⊢
  rw [show ("INFO CODE_ID " : String).data =
    ['I', 'N', 'F', 'O', ' ', 'C', 'O', 'D', 'E', '_', 'I', 'D', ' '] from rfl] at h
  rw [show ("FUNC " : String).data = ['F', 'U', 'N', 'C', ' '] from rfl]
  rcases hl : l.data with _ | ⟨a, t⟩ <;> rw [hl] at h
  · simp [isPrefixL] at h
  · simp only [isPrefixL, Bool.and_eq_true, decide_eq_true_eq] at h
    obtain ⟨ha, _⟩ := h
    rw [← ha]
    simp [isPrefixL]

theorem processLines_cc_invariant (v : Bool) (fmap : String → Option String)
    (cc1 cc2 : Bool) : ∀ ls : List String,
    (processLines v cc1 fmap ls).out = (processLines v cc2 fmap ls).out ∧
    (processLines v cc1 fmap ls).err = (processLines v cc2 fmap ls).err := by
  intro ls
  induction ls with
  | nil => exact ⟨rfl, rfl⟩
  | cons line rest ih =>
    simp only [processLines]
    split
    · split
      · split
        · exact ⟨rfl, rfl⟩
        · split
          · split
            · simp [ih.1, ih.2]
            · exact ⟨rfl, rfl⟩
          · simp [ih.1, ih.2]
      · exact ⟨rfl, rfl⟩
    · split
      · simp [ih.1, ih.2]
      · simp [ih.1, ih.2]

theorem processLines_ctors_countP (fmap : String → Option String) :
    ∀ ls : List String, (processLines false true fmap ls).err = none →
    (processLines false true fmap ls).ctors =
      ls.countP (fun l => funcGlobLine l || funcMsvcLine l) := by
  intro ls
  induction ls with
  | nil => intro _; rfl
  | cons line rest ih =>
    intro herr
    rw [List.countP_cons]
    by_cases h1 : sStartsWith "FILE" line = true
    · have hnp : (funcGlobLine line || funcMsvcLine line) = false := by
        simp [funcGlobLine, funcMsvcLine, sStartsWith_FILE_not_FUNC line h1]
      simp only [processLines, h1, if_true] at herr ⊢
      rcases hs : splitWsMax 2 (pyRstrip line) with _ | ⟨x, _ | ⟨i, _ | ⟨f, _ | ⟨y, ys⟩⟩⟩⟩
      · rw [hs] at herr
        simp at herr
      · rw [hs] at herr
        simp at herr
      · rw [hs] at herr
        simp at herr
      · rw [hs] at herr
        simp only [Bool.false_eq_true, if_false] at herr ⊢
        cases hhg : sStartsWith "hg" ((fmap (pyNormpath f)).getD (pyNormpath f))
        · simp [hhg, hnp] at herr ⊢
          exact ih herr
        · simp only [hhg, if_true] at herr ⊢
          rcases hsc : splitCharMax ':' 3 ((fmap (pyNormpath f)).getD (pyNormpath f)) with
            _ | ⟨a1, _ | ⟨a2, _ | ⟨a3, _ | ⟨a4, _ | ⟨a5, as⟩⟩⟩⟩⟩
          · rw [hsc] at herr
            simp at herr
          · rw [hsc] at herr
            simp at herr
          · rw [hsc] at herr
            simp at herr
          · rw [hsc] at herr
            simp at herr
          · rw [hsc] at herr
            simp [hnp] at herr ⊢
            exact ih herr
          · rw [hsc] at herr
            simp at herr
      · rw [hs] at herr
        simp at herr
    · by_cases h2 : sStartsWith "INFO CODE_ID " line = true
      · have hnp : (funcGlobLine line || funcMsvcLine line) = false := by
          simp [funcGlobLine, funcMsvcLine, sStartsWith_INFO_not_FUNC line h2]
        simp only [processLines, h1, h2, if_true, Bool.false_eq_true, if_false] at herr ⊢
        simp [hnp] at herr ⊢
        exact ih herr
      · simp only [processLines, h1, h2, Bool.false_eq_true, if_false] at herr ⊢
        simp at herr ⊢
        rw [ih herr]
        by_cases hf : sStartsWith "FUNC " line = true
        · by_cases hg : sContains globPat line = true
          · simp [hf, hg, funcGlobLine]
            omega
          · by_cases hm : sContains msvcPat line = true
            · simp [hf, hg, hm, funcGlobLine, funcMsvcLine]
              omega
            · simp [hf, hg, hm, funcGlobLine, funcMsvcLine]
        · simp [hf, funcGlobLine, funcMsvcLine]

theorem countP_or_disjoint (p q : String → Bool) :
    ∀ ls : List String, (∀ l ∈ ls, ¬(p l = true ∧ q l = true)) →
    ls.countP (fun l => p l || q l) = ls.countP p + ls.countP q := by
  intro ls
  induction ls with
  | nil => intro _; rfl
  | cons a ls ih =>
    intro h
    simp only [List.countP_cons]
    rw [ih (fun l hl => h l (by simp [hl]))]
    have ha := h a (by simp)
    cases hp : p a <;> cases hq : q a <;> simp [hp, hq] at ha ⊢ <;> omega

theorem ProcessFileWork_cc_written_invariant (sp : String) (v : Bool)
    (fmap : String → Option String) (m : Option Nat) (d : Bool)
    (ls : List String) (cc1 cc2 : Bool) :
    (ProcessFileWork sp v cc1 fmap m d ls).written =
      (ProcessFileWork sp v cc2 fmap m d ls).written := by
  cases ls with
  | nil => rfl
  | cons ml rest =>
    by_cases hm : sStartsWith "MODULE" ml = true
    · rcases hdrop : (pySplit ml).drop 3 with _ | ⟨g, gs⟩
      · simp [ProcessFileWork, hm, hdrop]
      · rcases gs with _ | ⟨df, ts⟩
        · simp [ProcessFileWork, hm, hdrop]
        · simp only [ProcessFileWork, hm, if_true, hdrop, ProcessFileWork_makedirs_ok]
          have hout := (processLines_cc_invariant v fmap cc1 cc2 rest).1
          have herr := (processLines_cc_invariant v fmap cc1 cc2 rest).2
          cases h2 : (processLines v cc2 fmap rest).err <;>
            rw [herr, h2] <;> simp [hout]
    · simp [ProcessFileWork, hm]

/-- C9: with constructor counting enabled, a line stream processed to
completion that holds exactly 2 lines matching the clang/gcc pattern
(`funcGlobLine`) and exactly 1 matching the MSVC pattern (`funcMsvcLine`),
none matching both, reports a static-constructor count of 3; a stream with
zero matching lines reports 0 (and, per its hypothesis, completes
normally); and counting never changes the content written to the `.sym`
file — the written output of `ProcessFileWork` is the same with
`count_ctors` on and off. -/
theorem C9_constructor_counting (fmap : String → Option String)
    (ls ls0 dumpOutput : List String) (sp : String) (v : Bool)
    (m : Option Nat) (d : Bool)
    (herr : (processLines false true fmap ls).err = none)
    (h2 : ls.countP funcGlobLine = 2)
    (h1 : ls.countP funcMsvcLine = 1)
    (hdisj : ∀ l ∈ ls, ¬(funcGlobLine l = true ∧ funcMsvcLine l = true))
    (herr0 : (processLines false true fmap ls0).err = none)
    (h0 : ls0.countP (fun l => funcGlobLine l || funcMsvcLine l) = 0) :
    (processLines false true fmap ls).ctors = 3 ∧
    (processLines false true fmap ls0).ctors = 0 ∧
    (ProcessFileWork sp v true fmap m d dumpOutput).written =
      (ProcessFileWork sp v false fmap m d dumpOutput).written := by
  refine ⟨?_, ?_, ProcessFileWork_cc_written_invariant sp v fmap m d dumpOutput true false⟩
  · rw [processLines_ctors_countP fmap ls herr,
      countP_or_disjoint funcGlobLine funcMsvcLine ls hdisj, h2, h1]
  · rw [processLines_ctors_countP fmap ls0 herr0, h0]

/-- Witness for C9: a concrete stream with two `_GLOBAL__sub_` FUNC lines
and one MSVC dynamic-initializer FUNC line counts 3; a single plain FUNC
line counts 0; and a concrete `ProcessFileWork` run writes the same lines
with counting on and off. -/
theorem C9_witness :
    (processLines false true (fun _ => none)
      ["FUNC 1000 10 0 _GLOBAL__sub_I_foo\n",
       "FUNC 1010 10 0 _GLOBAL__sub_I_bar\n",
       "FUNC 1020 10 0 \x60dynamic initializer for \x27baz\x27\x27\n"]).ctors = 3 ∧
    (processLines false true (fun _ => none) ["FUNC 2000 4 0 main\n"]).ctors = 0 ∧
    (ProcessFileWork "syms" false true (fun _ => none) none false
      ["MODULE Linux x86 AAAA libz.so\n", "FUNC 1 2 3 _GLOBAL__sub_I_q\n"]).written =
      (ProcessFileWork "syms" false false (fun _ => none) none false
        ["MODULE Linux x86 AAAA libz.so\n", "FUNC 1 2 3 _GLOBAL__sub_I_q\n"]).written :=
  C9_constructor_counting (fun _ => none)
    ["FUNC 1000 10 0 _GLOBAL__sub_I_foo\n",
     "FUNC 1010 10 0 _GLOBAL__sub_I_bar\n",
     "FUNC 1020 10 0 \x60dynamic initializer for \x27baz\x27\x27\n"]
    ["FUNC 2000 4 0 main\n"]
    ["MODULE Linux x86 AAAA libz.so\n", "FUNC 1 2 3 _GLOBAL__sub_I_q\n"]
    "syms" false none false
    (by decide) (by decide) (by decide) (by decide) (by decide) (by decide)

end SymbolStore

section Probes
open SymbolStore
example : pySplit "MODULE Linux x86_64 ABCD test.pdb\n" =
    ["MODULE", "Linux", "x86_64", "ABCD", "test.pdb"] := by decide
example : pyNormpath "a//b/./c" = "a/b/c" := by decide
example : pyNormpath "a/../../b" = "../b" := by decide
example : posixJoin "a" "b/c" = "a/b/c" := by decide
example : splitWsMax 2 "FILE 0  foo bar" = ["FILE", "0", "foo bar"] := by decide
example : splitCharMax ':' 3 "hg:co:p:r:x" = ["hg", "co", "p", "r:x"] := by decide
example : reSubPdbEnd "test.pdb" = "test" := by decide
example : sContains "_GLOBAL__sub_" "FUNC 0 _GLOBAL__sub_I_x" = true := by decide
example :
    ProcessFileWork "syms" false false (fun _ => none) none false
      ["MODULE Linux x86_64 ABCD test.pdb\n", "FUNC 1000 10 0 foo\n"] =
    ⟨some ("syms/test.pdb/ABCD/test.sym",
      ["MODULE Linux x86_64 ABCD test.pdb\n", "FUNC 1000 10 0 foo\n"]),
      true, none, none, false⟩ := by decide
example :
    (ProcessFileWork "syms" false false (fun _ => none) none false
      ["MODULE Linux x86_64 ABCD libx.so\n", "FILE 0\n"]).err = some PyErr.valueError := by
  decide
example :
    (ProcessFileWork "syms" false false (fun _ => none) none false
      ["MODULE Linux x86_64 ABCD libx.so\n", "FILE 0\n"]).written =
    some ("syms/libx.so/ABCD/libx.so.sym", ["MODULE Linux x86_64 ABCD libx.so\n"]) := by
  decide
example :
    (ProcessFileWork "syms" false true (fun _ => none) none false
      ["MODULE Linux x86_64 ABCD libx.so\n",
       "FUNC 1 1 0 _GLOBAL__sub_I_a\n",
       "FUNC 2 1 0 _GLOBAL__sub_I_b\n",
       "FUNC 3 1 0 \x60dynamic initializer for \x27c\x27\x27\n"]).ctorsReport =
    some 3 := by decide
end Probes
